import Mathlib

/-!
Verification development for the story-creator generation pipeline.

Part 1 embeds the server route `src/unnamed/part_001` (the `/api/gemini`
route): the Replicate create-retry loop and poll loop of
`replicateRunVersion`, the credential-based adapter selection of
`handleExpressionGeneration`, and the configuration
guard of the `POST` dispatcher.

Part 2 embeds the client-side matting algorithm `removeBackground` of
`src/unnamed/part_005`.

Modelling conventions for part 1: network responses are supplied as
oracles (functions from the attempt/poll index to the response observed
there), so the embedded functions are pure; the wall-clock poll deadline
(`Date.now() - startTime < timeoutMs` with a fixed sleep per iteration)
is modelled as a poll budget, the number of poll iterations the deadline
admits.  Each embedded function also returns the observable trace the
claims speak about (waits performed, adapters invoked, polls made).
-/

namespace StoryCreator

/-! ## Replicate adapter: create-retry loop (`replicateRunVersion`, part_001) -/

/-- Lifecycle status field of a Replicate prediction JSON
(`prediction.status`): `succeeded`, `failed`, `canceled`, or any
non-terminal value such as `starting`/`processing` (collapsed to
`running` since the code only tests the three terminal strings). -/
inductive PredStatus where
  | succeeded
  | failed
  | canceled
  | running
deriving DecidableEq, Repr

/-- The JSON body of a create/poll response: its status, its `output`
payload and its `error` message. -/
structure Prediction where
  pstatus : PredStatus
  output : String
  errMsg : String
deriving DecidableEq, Repr

/-- An HTTP response to the create call: the status code plus the parsed
prediction body.  `Response.ok` in the browser/node API is
`200 ≤ status < 300`. -/
structure CreateResp where
  status : Nat
  pred : Prediction
deriving DecidableEq, Repr

/-- Predicate `Response.ok` of the fetch API: status in the 2xx range. -/
def CreateResp.isOk (r : CreateResp) : Bool :=
  decide (200 ≤ r.status) && decide (r.status < 300)

/-- Failures thrown by `replicateRunVersion` (each `throw new Error(...)`
site).  `createFailed s` carries the HTTP status of the failed create
call: with `s = 429` it is the rate-limited failure returned after the
retry budget is exhausted. -/
inductive RunErr where
  | createFailed (status : Nat)
  | predictionFailed (msg : String)
  | predictionCanceled
  | pollTimeout
deriving DecidableEq, Repr

/-- The create-retry loop of `replicateRunVersion` (`for (attempt = 0;
attempt < 3; attempt++) ...`), started at attempt index `i`.  `create n`
is the response the n-th create attempt observes.  Returns the number of
attempts performed from `i` on, the list of backoff waits (in ms, in
order), and the response the loop broke on.  The loop retries only when
`createRes.status === 429 && attempt < 2`, sleeping `2000 * (attempt+1)`
ms before the next attempt. -/
def createLoop (create : Nat → CreateResp) (i : Nat) :
    Nat × List Nat × CreateResp :=
  let r := create i
  if r.status = 429 ∧ i < 2 then
    let rest := createLoop create (i + 1)
    (rest.1 + 1, 2000 * (i + 1) :: rest.2.1, rest.2.2)
  else
    (1, [], r)
termination_by 3 - i

/-- Poll responses: `notOk` models a transport-level non-ok status
response (`if (!statusRes.ok) continue`); `ok` carries the parsed
status body. -/
inductive PollResp where
  | notOk
  | ok (p : Prediction)
deriving DecidableEq, Repr

/-- A poll response is non-terminal when it is a transport error or a
body whose status is none of `succeeded`/`failed`/`canceled`. -/
def PollResp.nonTerminal : PollResp → Prop
  | .notOk => True
  | .ok p => p.pstatus = .running

instance : DecidablePred PollResp.nonTerminal := by
  intro r; cases r with
  | notOk => exact isTrue trivial
  | ok p => exact inferInstanceAs (Decidable (p.pstatus = .running))

/-- The poll loop of `replicateRunVersion` (`while (Date.now() -
startTime < timeoutMs) ...`): `polls n` is the response the n-th poll observes,
`budget` the number of poll iterations the deadline admits.  Returns the
result together with the number of polls actually performed.  A non-ok
transport response or a non-terminal body just continues; `succeeded`
returns the output, `failed`/`canceled` throw; an exhausted deadline
throws the polling-timeout error. -/
def pollLoop (polls : Nat → PollResp) : Nat → Nat → (Except RunErr String) × Nat
  | _, 0 => (.error .pollTimeout, 0)
  | i, budget + 1 =>
    match polls i with
    | .notOk =>
      let rest := pollLoop polls (i + 1) budget
      (rest.1, rest.2 + 1)
    | .ok p =>
      match p.pstatus with
      | .succeeded => (.ok p.output, 1)
      | .failed => (.error (.predictionFailed p.errMsg), 1)
      | .canceled => (.error .predictionCanceled, 1)
      | .running =>
        let rest := pollLoop polls (i + 1) budget
        (rest.1, rest.2 + 1)

/-- Function `replicateRunVersion`: run the create-retry loop; if the final
create response is not ok, throw `createFailed` with its status;
otherwise short-circuit on a terminal create body (`succeeded` returns
the output without polling, `failed` throws without polling), else
enter the poll loop.  Returns the result, the create-attempt count, the
backoff waits, and the number of polls performed. -/
def replicateRunVersion (create : Nat → CreateResp) (polls : Nat → PollResp)
    (budget : Nat) : (Except RunErr String) × Nat × List Nat × Nat :=
  let c := createLoop create 0
  let final := c.2.2
  if final.isOk then
    match final.pred.pstatus with
    | .succeeded => (.ok final.pred.output, c.1, c.2.1, 0)
    | .failed => (.error (.predictionFailed final.pred.errMsg), c.1, c.2.1, 0)
    | _ =>
      let p := pollLoop polls 0 budget
      (p.1, c.1, c.2.1, p.2)
  else
    (.error (.createFailed final.status), c.1, c.2.1, 0)

/-! ## Expression generation orchestration (`handleExpressionGeneration`, part_001) -/

/-- The four image-edit backends `handleExpressionGeneration` can speak
to, in the priority order of its `if/else if` chain. -/
inductive EditAdapter where
  | runpod
  | fal
  | dashscope
  | grok
deriving DecidableEq, Repr

/-- The configuration read once from the environment at module load
(`process.env.X || ''`): an empty string means the credential is
absent. -/
structure EnvCfg where
  replicateToken : String
  stabilityKey : String
  xaiKey : String
  dashscopeKey : String
  falKey : String
  runpodKey : String
  runpodEndpointId : String
deriving DecidableEq, Repr

/-- No backend credential at all is present. -/
def EnvCfg.noCredentials (e : EnvCfg) : Prop :=
  e.replicateToken = "" ∧ e.stabilityKey = "" ∧ e.xaiKey = "" ∧
    e.dashscopeKey = "" ∧ e.falKey = "" ∧ e.runpodKey = "" ∧
    e.runpodEndpointId = ""

instance (e : EnvCfg) : Decidable e.noCredentials := by
  unfold EnvCfg.noCredentials; infer_instance

/-- The adapter the `if/else if` chain of `handleExpressionGeneration`
selects: RunPod when both its key and endpoint id are set, else fal.ai,
else DashScope, else Grok (the unconditional final `else`). -/
def selectAdapter (e : EnvCfg) : EditAdapter :=
  if e.runpodKey ≠ "" ∧ e.runpodEndpointId ≠ "" then .runpod
  else if e.falKey ≠ "" then .fal
  else if e.dashscopeKey ≠ "" then .dashscope
  else .grok

/-- Responses of the expression-generation handler, as the claims view
them: a successful image, the no-base-image message response, a 500
error response carrying the failure message, and the 500
`Replicate API not configured` fail-fast response of `POST` (the
`NotConfigured` failure). -/
inductive HandlerResp where
  | success (imageUrl : String)
  | noBaseImage
  | failure (msg : String)
  | notConfigured
  | unknownAction
deriving DecidableEq, Repr

/-- Handler `handleExpressionGeneration`: with no base image, answer the
message response without contacting any backend; otherwise invoke the
single selected adapter (`call a` is the outcome of backend `a`) and either
return its image or surface its failure as a 500 response.  The second
component is the trace of adapters invoked (each invocation is network
activity). -/
def handleExpressionGeneration (e : EnvCfg)
    (call : EditAdapter → Except String String) (baseImageUrl : String) :
    HandlerResp × List EditAdapter :=
  if baseImageUrl = "" then (.noBaseImage, [])
  else
    let a := selectAdapter e
    match call a with
    | .ok img => (.success img, [a])
    | .error msg => (.failure msg, [a])

/-- The `POST` route handler restricted to what the claims need: the
fail-fast `if (!REPLICATE_API_TOKEN)` guard, then dispatch on the
action.  Only the `generate_expression` action is modelled; the trace
again records every adapter invocation. -/
def routePOST (e : EnvCfg) (call : EditAdapter → Except String String)
    (action : String) (baseImageUrl : String) :
    HandlerResp × List EditAdapter :=
  if e.replicateToken = "" then (.notConfigured, [])
  else if action = "generate_expression" then
    handleExpressionGeneration e call baseImageUrl
  else (.unknownAction, [])

/-! ## Matting engine (`removeBackground`, part_005)

The decoded image is the `ImageData` the code works on: a width, a
height and the flat RGBA byte array `d` (pixel `px` occupies bytes
`4*px .. 4*px+3`), modelled as a total function `Nat → Nat`.

Floating-point remark.  The source computes color distances with
`Math.sqrt` and compares them with integer thresholds; for natural `s`
and `b`, `Real.sqrt s < b ↔ s < b ^ 2`, and the double-precision
computation decides these comparisons exactly (the distance of `√s` to
the integer `b` is either `0` or at least `1/(2b)`, far above the
rounding error), so the embedding compares squared distances.  The
literals `0.18`, `0.65`, `0.05`, `0.92` are compared against ratios of
small integers; each comparison is modelled by the exactly equivalent
integer inequality (`relSat < 0.18` as `50*absSat < 9*maxCh`,
`bgCount >= total*0.65` as `20*bgCount ≥ 13*total`, `pct < 0.05` as
`20*cnt < w*h`, `pct > 0.92` as `25*cnt > 23*(w*h)`); at every boundary
case that the doubles round, both sides agree with the exact rational
comparison, because the decided quantities are ratios of integers whose
distance from the literal is either zero or far above the accumulated
rounding error.  The one comparison that is not exactly rational is the
mean-edge-brightness test `avgBgBrightness < 50`: its operand is a
chain of double additions of inexact thirds, and at inputs whose exact
mean is exactly 50 the accumulated rounding can land on either side of
50.  That comparison is therefore simulated bit-exactly in binary64
(`fl54` below) rather than replaced by a rational comparison. -/

/-- The decoded image: `ImageData` with its flat RGBA array `d`. -/
structure RGBAImage where
  w : Nat
  h : Nat
  d : Nat → Nat

/-- An RGB color triple (one edge-color estimate). -/
structure RGB where
  r : Nat
  g : Nat
  b : Nat
deriving DecidableEq, Repr

/-- Insert into an ascending list (helper for `sortAsc`). -/
def insAsc (x : Nat) : List Nat → List Nat
  | [] => [x]
  | y :: ys => if x ≤ y then x :: y :: ys else y :: insAsc x ys

/-- Ascending sort — the effect of `sort((a,b) => a-b)` on a numeric
array. -/
def sortAsc (l : List Nat) : List Nat :=
  l.foldr insAsc []

/-- Even indices `0, 2, 4, ...` strictly below `n` (the loops
`for (x = 0; x < n; x += 2)`). -/
def evensBelow (n : Nat) : List Nat :=
  (List.range ((n + 1) / 2)).map (2 * ·)

/-- Helper `sampleEdge`: per-channel median of the pixels at the given flat
positions — each channel array is sorted ascending and indexed at
`floor(length / 2)`. -/
def sampleEdge (img : RGBAImage) (positions : List Nat) : RGB :=
  let m := positions.length / 2
  { r := (sortAsc (positions.map fun px => img.d (4 * px))).getD m 0
    g := (sortAsc (positions.map fun px => img.d (4 * px + 1))).getD m 0
    b := (sortAsc (positions.map fun px => img.d (4 * px + 2))).getD m 0 }

/-- The four edge-color estimates, in source order: top edge, bottom
edge, left edge, right edge, each sampling every second pixel along
that border. -/
def edgeSamples (img : RGBAImage) : List RGB :=
  let topPx := evensBelow img.w
  let botPx := (evensBelow img.w).map fun x => (img.h - 1) * img.w + x
  let leftPx := (evensBelow img.h).map fun y => y * img.w
  let rightPx := (evensBelow img.h).map fun y => y * img.w + img.w - 1
  [sampleEdge img topPx, sampleEdge img botPx,
   sampleEdge img leftPx, sampleEdge img rightPx]

/-- Channel spread (`Math.max(r,g,b) - Math.min(r,g,b)`) of a sample. -/
def RGB.spread (s : RGB) : Nat :=
  max (max s.r s.g) s.b - min (min s.r s.g) s.b

/-- Classification `bgIsAchromatic`: every edge sample has channel spread < 35. -/
def bgIsAchromatic (es : List RGB) : Bool :=
  es.all fun s => s.spread < 35

/-- Classification `bgIsGreen`: some edge sample has green > 150 with red and blue
both < 120. -/
def bgIsGreen (es : List RGB) : Bool :=
  es.any fun s => decide (150 < s.g) && decide (s.r < 120) && decide (s.b < 120)

/-- Quantity `avgBgBrightness`: the mean over the edge samples of the
per-sample mean channel value `(r+g+b)/3`, as an exact rational.  This
is the ideal value of the quantity the source computes in binary64;
`thresholdOf` below uses the bit-exact binary64 simulation, which
agrees with this rational whenever the mean is not exactly 50. -/
def avgBgBrightness (es : List RGB) : ℚ :=
  (es.map fun s => ((s.r : ℚ) + s.g + s.b) / 3).sum / (es.length : ℚ)

/-- Exponent search for the binary64 simulation: for `3 * 2 ^ 52 ≤ m`
(and `m < 3 * 2 ^ (52 + fuel)`; the fuel 64 covers every value the
brightness chain can produce), returns the unique `j` with
`3 * 2 ^ (52 + j) ≤ m < 3 * 2 ^ (53 + j)`. -/
def findJ : Nat → Nat → Nat
  | 0, _ => 0
  | fuel + 1, m => if m < 3 * 2 ^ 53 then 0 else findJ fuel (m / 2) + 1

/-- Round `m / den` to the nearest integer, ties to the even candidate
— the IEEE-754 round-to-nearest-even rule applied to a scaled
significand. -/
def roundHalfEven (m den : Nat) : Nat :=
  let n := m / den
  let r := m % den
  if 2 * r < den then n
  else if den < 2 * r then n + 1
  else if n % 2 = 0 then n else n + 1

/-- One binary64 rounding of the mean-brightness chain.  The argument
is an exact value in units of `1 / (3 * 2 ^ 54)`; the result is the
nearest (ties-to-even) binary64 value, in units of `2 ^ (-54)`.  Every
nonzero value rounded in the chain lies in `[1/3, 1020]`, i.e. in a
binade `[2 ^ e, 2 ^ (e+1))` with `-2 ≤ e ≤ 9`, where the unit of the
last of the 53 mantissa bits is `2 ^ (e - 52) = 2 ^ (j - 54)` for
`j = e + 2 = findJ 64 m`; rounding therefore keeps the multiple of
`3 * 2 ^ j` (in input units) nearest to `m`, ties to the even
mantissa, and the result is exact in units of `2 ^ (-54)`.  (Values
below `1/4` other than exactly 0 never reach `fl54`, so smaller
binades need no treatment, and no overflow or subnormals occur.) -/
def fl54 (m : Nat) : Nat :=
  if m = 0 then 0
  else
    roundHalfEven m (3 * 2 ^ findJ 64 m) * 2 ^ findJ 64 m

/-- The term `(s.r + s.g + s.b) / 3` as the binary64 value the source
computes: `k / 3 = (k * 2 ^ 54) / (3 * 2 ^ 54)`, rounded. -/
def dblMeanTerm (k : Nat) : Nat :=
  fl54 (k * 2 ^ 54)

/-- One `sum + term` accumulation step of the reduce, in binary64: the
sum of two grid values is exact in units `1 / (3 * 2 ^ 54)` and is
then rounded. -/
def dblAdd (s t : Nat) : Nat :=
  fl54 (3 * (s + t))

/-- The reduce `edgeSamples.reduce((sum, s) => sum + (s.r+s.g+s.b)/3, 0)`
evaluated bit-exactly in binary64, in units of `2 ^ (-54)`. -/
def dblBrightnessSum (es : List RGB) : Nat :=
  es.foldl (fun acc s => dblAdd acc (dblMeanTerm (s.r + s.g + s.b))) 0

/-- The distance threshold: `bgIsGreen ? 80 : bgIsAchromatic ?
(avgBgBrightness < 50 ? 70 : 110) : 70`.  The comparison
`avgBgBrightness < 50` is simulated bit-exactly: the reduce is
evaluated in binary64 by `dblBrightnessSum`, and the final division by
`edgeSamples.length` — always 4, a power of two — is exact in
binary64, so `sum / 4 < 50` is decided as `sum < 50 * 4` on the
simulated value (in `2 ^ (-54)` units). -/
def thresholdOf (es : List RGB) : Nat :=
  if bgIsGreen es then 80
  else if bgIsAchromatic es then
    (if dblBrightnessSum es < 50 * es.length * 2 ^ 54 then 70 else 110)
  else 70

/-- The feather width constant. -/
def feather : Nat := 15

/-- Squared Euclidean RGB distance from pixel `px` of `d` to the
sample `s` (`Math.sqrt` deferred; see the floating-point remark). -/
def sqDistTo (d : Nat → Nat) (px : Nat) (s : RGB) : Nat :=
  (((d (4 * px) : ℤ) - s.r) ^ 2 + ((d (4 * px + 1) : ℤ) - s.g) ^ 2 +
    ((d (4 * px + 2) : ℤ) - s.b) ^ 2).toNat

/-- Function `minEdgeDist`, squared: the minimum over the edge samples of the
squared distance (`minD` starts at Infinity, so the empty case is
irrelevant; `edgeSamples` always has four entries). -/
def minEdgeDistSq (d : Nat → Nat) (es : List RGB) (px : Nat) : Nat :=
  match es.map (sqDistTo d px) with
  | [] => 0
  | x :: xs => xs.foldl min x

/-- Predicate `isLowSaturation`: max channel ≤ 10, or absolute saturation
`maxCh - minCh < 30` together with relative saturation
`(maxCh - minCh)/maxCh < 0.18` (decided exactly as
`50*absSat < 9*maxCh`; here `maxCh > 10`). -/
def isLowSaturation (d : Nat → Nat) (px : Nat) : Bool :=
  let maxCh := max (max (d (4 * px)) (d (4 * px + 1))) (d (4 * px + 2))
  let minCh := min (min (d (4 * px)) (d (4 * px + 1))) (d (4 * px + 2))
  if maxCh ≤ 10 then true
  else
    let absSat := maxCh - minCh
    decide (absSat < 30) && decide (50 * absSat < 9 * maxCh)

/-- The acceptance test of the border-seeded flood fill: accept when
the distance to the nearest edge color is below `threshold + feather`
(squared comparison), and, when that held and the background is
achromatic, replace the verdict by the low-saturation
test of the pixel itself — exactly the `let accept = ...; if (accept && bgIsAchromatic)
accept = isLowSaturation(...)` sequence. -/
def acceptBg (d : Nat → Nat) (es : List RGB) (achrom : Bool) (t : Nat)
    (px : Nat) : Bool :=
  let accept := decide (minEdgeDistSq d es px < (t + feather) ^ 2)
  if accept && achrom then isLowSaturation d px else accept

/-- One shared flood-fill loop (both `while (queue.length > 0)` loops
of the source have this exact shape): pop the top of the stack; skip if
visited; mark visited; if accepted, record the pixel in the result set
and push its unvisited 4-neighbours.  `visited` and `result` are pixel
sets represented as bitsets.  The loop terminates because
`5 * (unvisited pixels) + queue length` strictly decreases at every
iteration (a skip shortens the queue; a marking step visits a fresh
pixel and pushes at most four entries), so iterations are bounded by
`5*w*h + (initial queue length)`; `fillLoop` is run with fuel above
that bound and therefore always drains the queue, mirroring the
unbounded source loop. -/
def fillLoop (w h : Nat) (accept : Nat → Bool) :
    Nat → List Nat → Nat → Nat → Nat
  | 0, _, _, result => result
  | _ + 1, [], _, result => result
  | fuel + 1, px :: rest, visited, result =>
    if visited.testBit px then fillLoop w h accept fuel rest visited result
    else
      let visited' := visited ||| (1 <<< px)
      if accept px then
        let result' := result ||| (1 <<< px)
        let x := px % w
        let y := px / w
        let pushes :=
          (if y < h - 1 ∧ ¬ visited'.testBit (px + w) then [px + w] else []) ++
          (if 0 < y ∧ ¬ visited'.testBit (px - w) then [px - w] else []) ++
          (if x < w - 1 ∧ ¬ visited'.testBit (px + 1) then [px + 1] else []) ++
          (if 0 < x ∧ ¬ visited'.testBit (px - 1) then [px - 1] else [])
        fillLoop w h accept fuel (pushes ++ rest) visited' result'
      else fillLoop w h accept fuel rest visited' result

/-- The border seed list of the first fill, in push order: for each
`x`, row 0 and row `h-1`; then for each interior `y`, column 0 and
column `w-1`. -/
def borderSeeds (w h : Nat) : List Nat :=
  ((List.range w).flatMap fun x => [x, (h - 1) * w + x]) ++
    ((List.range (h - 2)).flatMap fun k => [(k + 1) * w, (k + 1) * w + w - 1])

/-- The first flood fill (`rawBg`): border-seeded, growing through
pixels accepted by `acceptBg`.  The JS array used as `push`/`pop` is a
stack whose top is the last element, so the seed list is reversed to
put the stack top at the head. -/
def rawBgMask (img : RGBAImage) : Nat :=
  let es := edgeSamples img
  let achrom := bgIsAchromatic es
  let t := thresholdOf es
  let seeds := borderSeeds img.w img.h
  fillLoop img.w img.h (acceptBg img.d es achrom t)
    (5 * (img.w * img.h) + seeds.length + 1) seeds.reverse 0 0

/-- Seeds of the second fill: the border pixels that are in `rawBg`. -/
def borderBgSeeds (w h : Nat) (raw : Nat) : List Nat :=
  ((List.range w).flatMap fun x =>
      (if raw.testBit x then [x] else []) ++
        (if raw.testBit ((h - 1) * w + x) then [(h - 1) * w + x] else [])) ++
    ((List.range (h - 2)).flatMap fun k =>
      (if raw.testBit ((k + 1) * w) then [(k + 1) * w] else []) ++
        (if raw.testBit ((k + 1) * w + w - 1) then [(k + 1) * w + w - 1] else []))

/-- The second flood fill (`borderConnected`): re-flood through the
`rawBg` set starting from the border, keeping the subset of `rawBg`
actually connected to the image border (the `if (!rawBg[px]) continue`
body is the reject branch of the shared loop). -/
def borderConnectedMask (img : RGBAImage) : Nat :=
  let raw := rawBgMask img
  let seeds := borderBgSeeds img.w img.h raw
  fillLoop img.w img.h (raw.testBit ·)
    (5 * (img.w * img.h) + seeds.length + 1) seeds.reverse 0 0

/-- The 7×7 neighbourhood vote at pixel `(x, y)`: the number of
in-bounds neighbours and how many of them are border-connected. -/
def votes (w h : Nat) (bc : Nat) (x y : Nat) : Nat × Nat :=
  let offsets := (List.range 7).flatMap fun dy => (List.range 7).map fun dx => (dy, dx)
  let valid := offsets.filter fun o =>
    decide (3 ≤ y + o.1) && decide (y + o.1 - 3 < h) &&
      decide (3 ≤ x + o.2) && decide (x + o.2 - 3 < w)
  (valid.countP (fun o => bc.testBit ((y + o.1 - 3) * w + (x + o.2 - 3))),
    valid.length)

/-- Majority-vote cleanup (`isBackground`): keep a border-connected
pixel only when at least 65% of its in-bounds 7×7 neighbourhood is
border-connected (`bgCount >= total * 0.65`, decided exactly as
`20*bgCount ≥ 13*total`). -/
def isBackgroundMask (img : RGBAImage) : Nat :=
  let bc := borderConnectedMask img
  (List.range (img.w * img.h)).foldl
    (fun acc px =>
      if bc.testBit px then
        let v := votes img.w img.h bc (px % img.w) (px / img.w)
        if 13 * v.2 ≤ 20 * v.1 then acc ||| (1 <<< px) else acc
      else acc) 0

/-- The feather interpolation value
`Math.round(((dd - threshold) / feather) * 255)` with `feather = 15`:
over the reals this is `⌊17*(√s - t) + 1/2⌋ = ⌊(√(1156*s) + 1 - 34*t)/2⌋`,
which the lemma `featherAlphaRaw_eq_floor` below proves equal to this
integer expression (`Nat.sqrt (1156*s)` is `⌊√(1156*s)⌋`). -/
def featherAlphaRaw (s t : Nat) : Nat :=
  (Nat.sqrt (1156 * s) + 1 - 34 * t) / 2

/-- The alpha-carving assignment for a confirmed-background pixel:
alpha 0 below the threshold, otherwise
`Math.min(old, Math.max(0, Math.min(255, alpha)))` with the feather
interpolation `alpha`. -/
def carvedAlpha (d : Nat → Nat) (es : List RGB) (t : Nat) (px : Nat) : Nat :=
  let s := minEdgeDistSq d es px
  if s < t ^ 2 then 0
  else min (d (4 * px + 3)) (max 0 (min 255 (featherAlphaRaw s t)))

/-- Number of pixels finally marked background (`removedCount`). -/
def removedCount (img : RGBAImage) : Nat :=
  (List.range (img.w * img.h)).countP (fun px => (isBackgroundMask img).testBit px)

/-- The core of `removeBackground` after a successful decode and
context acquisition: run the pipeline; if the removed fraction is
below 5% or above 92% (`pct < 0.05 || pct > 0.92`, decided exactly as
integer inequalities), resolve with the original data URL (`none`);
otherwise resolve with the carved image, whose bytes differ from the
input only in the alpha of confirmed-background pixels. -/
def removeBackgroundCore (img : RGBAImage) : Option RGBAImage :=
  let es := edgeSamples img
  let t := thresholdOf es
  let mask := isBackgroundMask img
  let cnt := removedCount img
  if 20 * cnt < img.w * img.h ∨ 23 * (img.w * img.h) < 25 * cnt then none
  else
    some { w := img.w, h := img.h
           d := fun i =>
             if i % 4 = 3 ∧ mask.testBit (i / 4) then carvedAlpha img.d es t (i / 4)
             else img.d i }

/-- Function `removeBackground` in full: the promise executor resolves with the
original data URL (`none`) when the image fails to decode
(`img.onerror`) or no 2d context is available (`if (!ctx)`); it never
rejects — every path resolves, which the embedding reflects by being a
total function. -/
def removeBackground (decoded : Option RGBAImage) (ctxOk : Bool) :
    Option RGBAImage :=
  match decoded with
  | none => none
  | some img => if ctxOk then removeBackgroundCore img else none

/-! ## Claim-side definitions

These definitions follow the wording of the specification claims (not
the source); the theorems below compare them with the source-derived
definitions above. -/

/-- Maximum channel value of pixel `px` (claim-side shorthand). -/
def pxMaxCh (d : Nat → Nat) (px : Nat) : Nat :=
  max (max (d (4 * px)) (d (4 * px + 1))) (d (4 * px + 2))

/-- Minimum channel value of pixel `px` (claim-side shorthand). -/
def pxMinCh (d : Nat → Nat) (px : Nat) : Nat :=
  min (min (d (4 * px)) (d (4 * px + 1))) (d (4 * px + 2))

/-- Low saturation as claim C7 words it: max channel ≤ 10, or
`(max_channel - min_channel) < 30` and
`(max_channel - min_channel) / max_channel < 0.18`. -/
def lowSatSpec (d : Nat → Nat) (px : Nat) : Prop :=
  pxMaxCh d px ≤ 10 ∨
    (pxMaxCh d px - pxMinCh d px < 30 ∧
      ((pxMaxCh d px : ℝ) - pxMinCh d px) / pxMaxCh d px < 0.18)

/-- The threshold mapping exactly as claim C1 states it: 80 when
chroma-key-green, 70 when achromatic with mean edge brightness ≥ 50,
110 when achromatic with mean edge brightness < 50, else 70. -/
def c1ClaimThreshold (es : List RGB) : Nat :=
  if bgIsGreen es then 80
  else if bgIsAchromatic es then (if avgBgBrightness es < 50 then 110 else 70)
  else 70

/-! ## Concrete fixtures for counterexamples and witnesses -/

/-- A 2×2 all-white, fully opaque image. -/
def white2 : RGBAImage where
  w := 2
  h := 2
  d := fun _ => 255

/-- A 6×6 white, fully opaque image with a black 2×2 block at rows 2–3,
columns 2–3: its white part is carved (32 of 36 pixels marked
background, 88.9%, inside the guard band). -/
def img6 : RGBAImage where
  w := 6
  h := 6
  d := fun i =>
    if i % 4 = 3 then 255
    else
      let px := i / 4
      let x := px % 6
      let y := px / 6
      if 2 ≤ x ∧ x ≤ 3 ∧ 2 ≤ y ∧ y ≤ 3 then 0 else 255

/-- The carved output for `img6` (defined: `removeBackgroundCore img6`
is `some`). -/
def out6 : RGBAImage :=
  (removeBackgroundCore img6).getD img6

/-- A 20×20 fully opaque image that is 95% a single flat color (380
white pixels) yet is not returned unchanged: a 1-pixel black ring (the
boundary of the block rows/cols 7–12, 20 pixels) encloses a 4×4 white
island, so the flood fill marks only the border-connected white frame
(356 pixels after cleanup, 89% — inside the guard band) and carving
proceeds. -/
def flatFrameImg : RGBAImage where
  w := 20
  h := 20
  d := fun i =>
    if i % 4 = 3 then 255
    else
      let px := i / 4
      let x := px % 20
      let y := px / 20
      if (7 ≤ x ∧ x ≤ 12 ∧ 7 ≤ y ∧ y ≤ 12) ∧
          ¬(8 ≤ x ∧ x ≤ 11 ∧ 8 ≤ y ∧ y ≤ 11) then 0
      else 255

/-- Four byte-valued achromatic, non-green edge samples whose channel
sums (0, 2, 407, 191) have exact mean brightness exactly 50: the
binary64 evaluation of the mean lands just below 50, so the source
derives threshold 70 here (see `thresholdOf_boundary_binary64`). -/
def boundarySamples : List RGB :=
  [{ r := 0, g := 0, b := 0 }, { r := 1, g := 1, b := 0 },
   { r := 136, g := 136, b := 135 }, { r := 64, g := 64, b := 63 }]

/-- An environment with every credential configured. -/
def envAll : EnvCfg where
  replicateToken := "r8_token"
  stabilityKey := "sk_stability"
  xaiKey := "xai_key"
  dashscopeKey := "sk_dashscope"
  falKey := "fal_key"
  runpodKey := "rp_key"
  runpodEndpointId := "rp_endpoint"

/-- An environment with no credential at all. -/
def envNone : EnvCfg where
  replicateToken := ""
  stabilityKey := ""
  xaiKey := ""
  dashscopeKey := ""
  falKey := ""
  runpodKey := ""
  runpodEndpointId := ""

/-- Backend outcomes for the fallback scenario of claim C2: the
first-priority adapter A (RunPod) fails, the later adapters B (fal.ai)
and C (DashScope) would succeed. -/
def callAFails : EditAdapter → Except String String
  | .runpod => .error "A failed"
  | .fal => .ok "image-from-B"
  | .dashscope => .ok "image-from-C"
  | .grok => .ok "image-from-D"

/-- A create oracle that is rate-limited on every attempt. -/
def createAlways429 : Nat → CreateResp :=
  fun _ => { status := 429, pred := { pstatus := .running, output := "", errMsg := "" } }

/-- A create oracle whose first response is an immediate 500 failure. -/
def createFails500 : Nat → CreateResp :=
  fun _ => { status := 500, pred := { pstatus := .running, output := "", errMsg := "" } }

/-- A create oracle that succeeds immediately with a terminal
`succeeded` body. -/
def createOkDone : Nat → CreateResp :=
  fun _ => { status := 201, pred := { pstatus := .succeeded, output := "img", errMsg := "" } }

/-- A poll oracle: transport error, then running, then a terminal
`succeeded` body. -/
def pollsSucceedThird : Nat → PollResp
  | 0 => .notOk
  | 1 => .ok { pstatus := .running, output := "", errMsg := "" }
  | _ => .ok { pstatus := .succeeded, output := "done", errMsg := "" }

/-- A poll oracle that fails terminally on its first response. -/
def pollsFailFirst : Nat → PollResp :=
  fun _ => .ok { pstatus := .failed, output := "", errMsg := "boom" }

/-! ## Bridging lemmas

These connect the integer comparisons of the embedding with the
real-number comparisons the claims are phrased in. -/

/-- Comparing a real square root with a positive natural bound is the
squared integer comparison the embedding uses. -/
theorem sqrt_natCast_lt_iff {s b : Nat} (hb : 0 < b) :
    Real.sqrt s < b ↔ s < b ^ 2 := by
  rw [Real.sqrt_lt' (by exact_mod_cast hb)]
  exact_mod_cast Iff.rfl

/-- Dual form: a natural bound is at most the square root iff its
square is at most the radicand. -/
theorem natCast_le_sqrt_iff {s b : Nat} :
    (b : ℝ) ≤ Real.sqrt s ↔ b ^ 2 ≤ s := by
  rw [Real.le_sqrt (by positivity) (by positivity)]
  exact_mod_cast Iff.rfl

/-- Sum of per-sample mean channel values, with the division pulled out
of the sum. -/
theorem sum_mean_channels (es : List RGB) :
    (es.map fun s => ((s.r : ℚ) + s.g + s.b) / 3).sum =
      (((es.map fun s => s.r + s.g + s.b).sum : ℕ) : ℚ) / 3 := by
  induction es with
  | nil => simp
  | cons a t ih =>
    rw [List.map_cons, List.map_cons, List.sum_cons, List.sum_cons, ih,
      Nat.cast_add, add_div]
    push_cast
    ring

/-- The ideal (exact-rational) mean-edge-brightness comparison in
integer form: the mean is below 50 iff the channel sums are below
`150 * length`. -/
theorem avgBgBrightness_lt_fifty_iff (es : List RGB) (h : es ≠ []) :
    avgBgBrightness es < 50 ↔
      (es.map fun s => s.r + s.g + s.b).sum < 150 * es.length := by
  have hlen : 0 < (es.length : ℚ) := by
    have := List.length_pos.mpr h
    exact_mod_cast this
  unfold avgBgBrightness
  rw [sum_mean_channels, div_div, div_lt_iff₀ (by positivity)]
  have hcast : ((150 * es.length : ℕ) : ℚ) = 150 * (es.length : ℚ) := by
    push_cast
    ring
  constructor
  · intro hq
    have hc : (((es.map fun s => s.r + s.g + s.b).sum : ℕ) : ℚ) <
        ((150 * es.length : ℕ) : ℚ) := by rw [hcast]; linarith
    exact_mod_cast hc
  · intro hn
    have hc : (((es.map fun s => s.r + s.g + s.b).sum : ℕ) : ℚ) <
        ((150 * es.length : ℕ) : ℚ) := by exact_mod_cast hn
    rw [hcast] at hc
    linarith

/-- Dual form: the ideal mean exceeds 50 iff the channel sums exceed
`150 * length`. -/
theorem fifty_lt_avgBgBrightness_iff (es : List RGB) (h : es ≠ []) :
    50 < avgBgBrightness es ↔
      150 * es.length < (es.map fun s => s.r + s.g + s.b).sum := by
  have hlen : 0 < (es.length : ℚ) := by
    have := List.length_pos.mpr h
    exact_mod_cast this
  unfold avgBgBrightness
  rw [sum_mean_channels, div_div, lt_div_iff₀ (by positivity)]
  have hcast : ((150 * es.length : ℕ) : ℚ) = 150 * (es.length : ℚ) := by
    push_cast
    ring
  constructor
  · intro hq
    have hc : ((150 * es.length : ℕ) : ℚ) <
        (((es.map fun s => s.r + s.g + s.b).sum : ℕ) : ℚ) := by rw [hcast]; linarith
    exact_mod_cast hc
  · intro hn
    have hc : ((150 * es.length : ℕ) : ℚ) <
        (((es.map fun s => s.r + s.g + s.b).sum : ℕ) : ℚ) := by exact_mod_cast hn
    rw [hcast] at hc
    linarith

/-- Specification of the exponent search: on
`[3 * 2 ^ 52, 3 * 2 ^ (52 + fuel))` it returns the binade index. -/
theorem findJ_spec : ∀ fuel m, 3 * 2 ^ 52 ≤ m → m < 3 * 2 ^ (52 + fuel) →
    3 * 2 ^ (52 + findJ fuel m) ≤ m ∧ m < 3 * 2 ^ (53 + findJ fuel m) := by
  intro fuel
  induction fuel with
  | zero =>
    intro m h1 h2
    rw [Nat.add_zero] at h2
    omega
  | succ f ih =>
    intro m h1 h2
    by_cases hlt : m < 3 * 2 ^ 53
    · simp only [findJ, if_pos hlt, Nat.add_zero]
      exact ⟨h1, hlt⟩
    · have hge : 3 * 2 ^ 53 ≤ m := le_of_not_lt hlt
      have h1' : 3 * 2 ^ 52 ≤ m / 2 := by
        have he : (2 : Nat) ^ 53 = 2 ^ 52 * 2 := by rw [pow_succ]
        omega
      have h2' : m / 2 < 3 * 2 ^ (52 + f) := by
        have hidx : 52 + (f + 1) = (52 + f) + 1 := by omega
        rw [hidx, pow_succ] at h2
        omega
      have hrec := ih (m / 2) h1' h2'
      simp only [findJ, if_neg hlt]
      constructor
      · have hidx : 52 + (findJ f (m / 2) + 1) = (52 + findJ f (m / 2)) + 1 := by
          omega
        rw [hidx, pow_succ]
        have := hrec.1
        omega
      · have hidx : 53 + (findJ f (m / 2) + 1) = (53 + findJ f (m / 2)) + 1 := by
          omega
        rw [hidx, pow_succ]
        have := hrec.2
        omega

/-- The rounding step moves the scaled value by at most half an ulp:
`2 * |error| ≤ den`. -/
theorem roundHalfEven_err (m den : Nat) (h : 0 < den) :
    2 * (roundHalfEven m den * den) ≤ 2 * m + den ∧
    2 * m ≤ 2 * (roundHalfEven m den * den) + den := by
  have hdm : den * (m / den) + m % den = m := Nat.div_add_mod m den
  have hr : m % den < den := Nat.mod_lt m h
  simp only [roundHalfEven]
  generalize hq : m / den = q at hdm ⊢
  generalize hrr : m % den = r at hdm hr ⊢
  split_ifs with h1 h2 h3
  · constructor <;> nlinarith [hdm, hr, h1]
  · constructor <;> nlinarith [hdm, hr, h2]
  · constructor <;> nlinarith [hdm, hr, h1, h2]
  · constructor <;> nlinarith [hdm, hr, h1, h2]

/-- One `fl54` rounding moves the value by at most half an ulp, and on
the range the brightness chain uses (`m ≤ 3 * 2 ^ 66`) the ulp is at
most `3 * 2 ^ 14` input units. -/
theorem fl54_err (m : Nat) (hm : m ≤ 3 * 2 ^ 66) :
    2 * (3 * fl54 m) ≤ 2 * m + 3 * 2 ^ 14 ∧
    2 * m ≤ 2 * (3 * fl54 m) + 3 * 2 ^ 14 := by
  unfold fl54
  split_ifs with h0
  · subst h0
    norm_num
  · by_cases hbig : 3 * 2 ^ 53 ≤ m
    · have hlt116 : m < 3 * 2 ^ (52 + 64) := lt_of_le_of_lt hm (by norm_num)
      have h52 : 3 * 2 ^ 52 ≤ m := le_trans (by norm_num) hbig
      obtain ⟨hj1, hj2⟩ := findJ_spec 64 m h52 hlt116
      have hjle : findJ 64 m ≤ 14 := by
        by_contra hc
        push_neg at hc
        have hpow : 3 * 2 ^ 67 ≤ 3 * 2 ^ (52 + findJ 64 m) :=
          Nat.mul_le_mul_left 3 (Nat.pow_le_pow_right (by norm_num) (by omega))
        have hcon : (3 : ℕ) * 2 ^ 67 ≤ 3 * 2 ^ 66 := le_trans (le_trans hpow hj1) hm
        norm_num at hcon
      have hD : 0 < 3 * 2 ^ findJ 64 m := by positivity
      obtain ⟨he1, he2⟩ := roundHalfEven_err m (3 * 2 ^ findJ 64 m) hD
      have hrw : 3 * (roundHalfEven m (3 * 2 ^ findJ 64 m) * 2 ^ findJ 64 m) =
          roundHalfEven m (3 * 2 ^ findJ 64 m) * (3 * 2 ^ findJ 64 m) := by ring
      rw [hrw]
      have hDle : 3 * 2 ^ findJ 64 m ≤ 3 * 2 ^ 14 :=
        Nat.mul_le_mul_left 3 (Nat.pow_le_pow_right (by norm_num) hjle)
      have h14 : (3 : ℕ) * 2 ^ 14 = 49152 := by norm_num
      rw [h14] at hDle ⊢
      omega
    · have hj0 : findJ 64 m = 0 := by
        rw [show (64 : ℕ) = 63 + 1 from rfl]
        simp only [findJ]
        rw [if_pos (lt_of_not_le hbig)]
      rw [hj0]
      simp only [pow_zero, mul_one]
      obtain ⟨he1, he2⟩ := roundHalfEven_err m 3 (by norm_num)
      have h14 : (3 : ℕ) * 2 ^ 14 = 49152 := by norm_num
      rw [h14]
      omega

/-- The binary64 reduce over four byte-bounded samples stays within
half of `2 ^ 20` input units of the exact sum of thirds: the chain
performs eight roundings of at most half of `3 * 2 ^ 14` units
each. -/
theorem dblBrightnessSum_err (es : List RGB) (hlen : es.length = 4)
    (hb : ∀ s ∈ es, s.r + s.g + s.b ≤ 765) :
    2 * (3 * dblBrightnessSum es) ≤
        2 * ((es.map fun s => s.r + s.g + s.b).sum * 2 ^ 54) + 2 ^ 20 ∧
    2 * ((es.map fun s => s.r + s.g + s.b).sum * 2 ^ 54) ≤
        2 * (3 * dblBrightnessSum es) + 2 ^ 20 := by
  rcases es with _ | ⟨a, es⟩
  · simp at hlen
  rcases es with _ | ⟨b, es⟩
  · simp at hlen
  rcases es with _ | ⟨c, es⟩
  · simp at hlen
  rcases es with _ | ⟨d, es⟩
  · simp at hlen
  rcases es with _ | ⟨e, es⟩
  case cons =>
    simp only [List.length_cons] at hlen
    omega
  have hka : a.r + a.g + a.b ≤ 765 := hb a (by simp)
  have hkb : b.r + b.g + b.b ≤ 765 := hb b (by simp)
  have hkc : c.r + c.g + c.b ≤ 765 := hb c (by simp)
  have hkd : d.r + d.g + d.b ≤ 765 := hb d (by simp)
  have h66 : (3 : ℕ) * 2 ^ 66 = 221360928884514619392 := by norm_num
  have h54 : (2 : ℕ) ^ 54 = 18014398509481984 := by norm_num
  have h14 : (3 : ℕ) * 2 ^ 14 = 49152 := by norm_num
  have h20 : (2 : ℕ) ^ 20 = 1048576 := by norm_num
  set t1 := dblMeanTerm (a.r + a.g + a.b) with ht1
  set t2 := dblMeanTerm (b.r + b.g + b.b) with ht2
  set t3 := dblMeanTerm (c.r + c.g + c.b) with ht3
  set t4 := dblMeanTerm (d.r + d.g + d.b) with ht4
  set u1 := dblAdd 0 t1 with hu1
  set u2 := dblAdd u1 t2 with hu2
  set u3 := dblAdd u2 t3 with hu3
  set u4 := dblAdd u3 t4 with hu4
  have hchain : dblBrightnessSum [a, b, c, d] = u4 := rfl
  have e1 := fl54_err ((a.r + a.g + a.b) * 2 ^ 54)
    (by rw [h66, h54]; omega)
  have e2 := fl54_err ((b.r + b.g + b.b) * 2 ^ 54)
    (by rw [h66, h54]; omega)
  have e3 := fl54_err ((c.r + c.g + c.b) * 2 ^ 54)
    (by rw [h66, h54]; omega)
  have e4 := fl54_err ((d.r + d.g + d.b) * 2 ^ 54)
    (by rw [h66, h54]; omega)
  rw [show fl54 ((a.r + a.g + a.b) * 2 ^ 54) = t1 from rfl] at e1
  rw [show fl54 ((b.r + b.g + b.b) * 2 ^ 54) = t2 from rfl] at e2
  rw [show fl54 ((c.r + c.g + c.b) * 2 ^ 54) = t3 from rfl] at e3
  rw [show fl54 ((d.r + d.g + d.b) * 2 ^ 54) = t4 from rfl] at e4
  rw [h54, h14] at e1 e2 e3 e4
  have e5 := fl54_err (3 * (0 + t1)) (by rw [h66]; omega)
  rw [show fl54 (3 * (0 + t1)) = u1 from rfl] at e5
  rw [h14] at e5
  have e6 := fl54_err (3 * (u1 + t2)) (by rw [h66]; omega)
  rw [show fl54 (3 * (u1 + t2)) = u2 from rfl] at e6
  rw [h14] at e6
  have e7 := fl54_err (3 * (u2 + t3)) (by rw [h66]; omega)
  rw [show fl54 (3 * (u2 + t3)) = u3 from rfl] at e7
  rw [h14] at e7
  have e8 := fl54_err (3 * (u3 + t4)) (by rw [h66]; omega)
  rw [show fl54 (3 * (u3 + t4)) = u4 from rfl] at e8
  rw [h14] at e8
  rw [hchain]
  simp only [List.map_cons, List.map_nil, List.sum_cons, List.sum_nil]
  rw [h54, h20]
  omega

/-- The low-saturation test of the source decides exactly the
real-valued condition of the claim. -/
theorem isLowSaturation_iff (d : Nat → Nat) (px : Nat) :
    isLowSaturation d px = true ↔ lowSatSpec d px := by
  unfold isLowSaturation lowSatSpec
  by_cases hm : max (max (d (4 * px)) (d (4 * px + 1))) (d (4 * px + 2)) ≤ 10
  · simp [pxMaxCh, hm]
  · have hmax : pxMaxCh d px = max (max (d (4 * px)) (d (4 * px + 1))) (d (4 * px + 2)) := rfl
    have hmin : pxMinCh d px = min (min (d (4 * px)) (d (4 * px + 1))) (d (4 * px + 2)) := rfl
    have hpos : (0 : ℝ) < pxMaxCh d px := by
      rw [hmax]; exact_mod_cast Nat.lt_of_lt_of_le (by norm_num) (Nat.not_le.mp hm).le
    have hminle : pxMinCh d px ≤ pxMaxCh d px := by
      rw [hmax, hmin]
      calc min (min (d (4 * px)) (d (4 * px + 1))) (d (4 * px + 2))
          ≤ d (4 * px) := le_trans (Nat.min_le_left _ _) (Nat.min_le_left _ _)
        _ ≤ max (max (d (4 * px)) (d (4 * px + 1))) (d (4 * px + 2)) :=
            le_trans (Nat.le_max_left _ _) (Nat.le_max_left _ _)
    have hratio : ((pxMaxCh d px : ℝ) - pxMinCh d px) / pxMaxCh d px < 0.18 ↔
        50 * (pxMaxCh d px - pxMinCh d px) < 9 * pxMaxCh d px := by
      rw [div_lt_iff₀ hpos, show (0.18 : ℝ) = 9 / 50 by norm_num]
      rw [show ((pxMaxCh d px : ℝ) - pxMinCh d px) = ((pxMaxCh d px - pxMinCh d px : ℕ) : ℝ) by
        rw [Nat.cast_sub hminle]]
      constructor
      · intro hq
        have : (50 : ℝ) * (pxMaxCh d px - pxMinCh d px : ℕ) < 9 * pxMaxCh d px := by
          nlinarith
        exact_mod_cast this
      · intro hn
        have : (50 : ℝ) * (pxMaxCh d px - pxMinCh d px : ℕ) < 9 * pxMaxCh d px := by
          exact_mod_cast hn
        nlinarith
    simp only [hm, if_false, Bool.and_eq_true, decide_eq_true_eq]
    rw [hratio]
    constructor
    · intro hc
      exact Or.inr ⟨by rw [hmax, hmin]; exact hc.1, by rw [hmax, hmin]; exact hc.2⟩
    · rintro (hc | hc)
      · exact absurd (hmax ▸ hc) hm
      · exact ⟨by rw [← hmax, ← hmin]; exact hc.1, by rw [← hmax, ← hmin]; exact hc.2⟩


/-! ## Claim C2: fallback orchestration -/

/-- C2 (counterexample): with every backend configured, adapter A
(RunPod, highest priority) failing, and adapters B (fal.ai) and C
(DashScope) succeeding, the handler surfaces the failure of A — the
result does not come from B, and B is never invoked (the invocation
trace is exactly `[runpod]`), contradicting the claimed
continue-on-failure fallback. -/
theorem c2_fallback_counterexample :
    handleExpressionGeneration envAll callAFails "data:image/png;base64,AA" =
      (.failure "A failed", [.runpod]) ∧
    callAFails .fal = .ok "image-from-B" := by
  constructor <;> rfl

/-- C2 (amended): the handler invokes exactly one adapter — the
highest-priority configured one (RunPod → fal.ai → DashScope → Grok,
with Grok the unconditional fallback).  On success its image is
returned and no later adapter is invoked; on failure the failure is
surfaced immediately and no other adapter is tried. -/
theorem c2_fallback_amended (e : EnvCfg)
    (call : EditAdapter → Except String String) (base : String)
    (hbase : base ≠ "") :
    (handleExpressionGeneration e call base).2 = [selectAdapter e] ∧
    (∀ img, call (selectAdapter e) = .ok img →
      (handleExpressionGeneration e call base).1 = .success img) ∧
    (∀ msg, call (selectAdapter e) = .error msg →
      (handleExpressionGeneration e call base).1 = .failure msg) := by
  refine ⟨?_, fun img himg => ?_, fun msg hmsg => ?_⟩ <;>
    simp only [handleExpressionGeneration, if_neg hbase] <;>
    rcases hc : call (selectAdapter e) with v | v <;>
    simp_all

/-- C2 (witness for the amended theorem): the concrete scenario of the
counterexample instantiates it. -/
theorem c2_fallback_amended_witness :
    ("data:image/png;base64,AA" ≠ "") ∧
    (handleExpressionGeneration envAll callAFails "data:image/png;base64,AA").2 =
      [selectAdapter envAll] :=
  ⟨by decide,
    (c2_fallback_amended envAll callAFails "data:image/png;base64,AA" (by decide)).1⟩

/-! ## Claim C3: fail-fast when nothing is configured -/

/-- C3 (confirmed): with no backend credential present at all, the
route answers the `Replicate API not configured` failure immediately
and the adapter-invocation trace is empty — no network activity. -/
theorem c3_notConfigured (e : EnvCfg)
    (call : EditAdapter → Except String String) (action base : String)
    (h : e.noCredentials) :
    routePOST e call action base = (.notConfigured, []) := by
  unfold routePOST
  rw [if_pos h.1]

/-- C3 (witness): the all-empty environment fails fast with an empty
trace. -/
theorem c3_notConfigured_witness :
    envNone.noCredentials ∧
    routePOST envNone callAFails "generate_expression" "data:x" =
      (.notConfigured, []) :=
  ⟨by decide,
    c3_notConfigured envNone callAFails "generate_expression" "data:x" (by decide)⟩

/-! ## Claim C8: the matting engine never raises -/

/-- C8 (confirmed): `removeBackground` is a total function (the promise
executor resolves on every path and never rejects), and on a decode
failure or a missing 2d context it resolves with the original asset
(`none` marks the original data URL being returned unmodified). -/
theorem c8_never_raises (decoded : Option RGBAImage) (ctxOk : Bool)
    (h : decoded = none ∨ ctxOk = false) :
    removeBackground decoded ctxOk = none := by
  rcases h with h | h
  · subst h
    rfl
  · subst h
    cases decoded with
    | none => rfl
    | some img => simp [removeBackground]

/-- C8 (witness): the decode-failure path returns the original. -/
theorem c8_never_raises_witness :
    removeBackground (none : Option RGBAImage) true = none :=
  c8_never_raises none true (Or.inl rfl)

/-! ## Claim C4: the create-retry controller -/

/-- Unfolding equation of `createLoop` (one loop iteration). -/
theorem createLoop_eq (create : Nat → CreateResp) (i : Nat) :
    createLoop create i =
      if (create i).status = 429 ∧ i < 2 then
        ((createLoop create (i + 1)).1 + 1,
          2000 * (i + 1) :: (createLoop create (i + 1)).2.1,
          (createLoop create (i + 1)).2.2)
      else (1, [], create i) := by
  rw [createLoop]

/-- C4 (confirmed): the create call makes at most 3 attempts; every
attempt that is followed by another observed a 429 (only a rate-limit
signal triggers a retry); the wait preceding attempt `k` (0-based,
`k ≥ 1`) is `2000 * k` ms; a first response that is not a 429 ends the
loop immediately with that response; and when all three attempts are
rate-limited the run returns the failure that carries the 429 status
(the rate-limited failure) instead of retrying further. -/
theorem c4_retry_controller (create : Nat → CreateResp)
    (polls : Nat → PollResp) (budget : Nat) :
    (createLoop create 0).1 ≤ 3 ∧
    (∀ k, k + 1 < (createLoop create 0).1 → (create k).status = 429) ∧
    (createLoop create 0).2.1.length = (createLoop create 0).1 - 1 ∧
    (∀ k, 0 < k → k < (createLoop create 0).1 →
      (createLoop create 0).2.1.get? (k - 1) = some (2000 * k)) ∧
    ((create 0).status ≠ 429 →
      (createLoop create 0).1 = 1 ∧ (createLoop create 0).2.2 = create 0) ∧
    ((create 0).status = 429 → (create 1).status = 429 →
      (create 2).status = 429 →
      (createLoop create 0).1 = 3 ∧
      (replicateRunVersion create polls budget).1 =
        .error (.createFailed 429)) := by
  have e2 : createLoop create 2 = (1, [], create 2) := by
    rw [createLoop_eq]
    simp
  by_cases h0 : (create 0).status = 429
  · by_cases h1 : (create 1).status = 429
    · have e1 : createLoop create 1 = (2, [4000], create 2) := by
        rw [createLoop_eq, if_pos ⟨h1, by norm_num⟩, e2]
      have e0 : createLoop create 0 = (3, [2000, 4000], create 2) := by
        rw [createLoop_eq, if_pos ⟨h0, by norm_num⟩, e1]
      rw [e0]
      refine ⟨by norm_num, ?_, by norm_num, ?_, fun hne => absurd h0 hne, ?_⟩
      · intro k hk
        have hk3 : k + 1 < 3 := hk
        rcases k with _ | _ | k
        · exact h0
        · exact h1
        · omega
      · intro k hk1 hk2
        have hk3 : k < 3 := hk2
        rcases k with _ | _ | _ | k
        · omega
        · rfl
        · rfl
        · omega
      · intro _ _ h2
        refine ⟨rfl, ?_⟩
        unfold replicateRunVersion
        rw [e0]
        simp only [CreateResp.isOk, h2]
        norm_num
    · have e0 : createLoop create 0 = (2, [2000], create 1) := by
        rw [createLoop_eq, if_pos ⟨h0, by norm_num⟩, createLoop_eq,
          if_neg (fun hc => h1 hc.1)]
      rw [e0]
      refine ⟨by norm_num, ?_, by norm_num, ?_, fun hne => absurd h0 hne,
        fun _ hc => absurd hc h1⟩
      · intro k hk
        have hk3 : k + 1 < 2 := hk
        rcases k with _ | k
        · exact h0
        · omega
      · intro k hk1 hk2
        have hk3 : k < 2 := hk2
        rcases k with _ | _ | k
        · omega
        · rfl
        · omega
  · have e0 : createLoop create 0 = (1, [], create 0) := by
      rw [createLoop_eq, if_neg (fun hc => h0 hc.1)]
    rw [e0]
    exact ⟨by norm_num, fun k hk => by omega, by norm_num, fun k hk1 hk2 => by omega,
      fun _ => ⟨rfl, rfl⟩, fun hc => absurd hc h0⟩

/-- C4 (witness): an always-rate-limited oracle makes exactly 3
attempts, with waits 2000 ms then 4000 ms, and the run fails with the
429-carrying failure. -/
theorem c4_retry_controller_witness :
    (createAlways429 0).status = 429 ∧
    (createLoop createAlways429 0).1 = 3 ∧
    (replicateRunVersion createAlways429 pollsSucceedThird 5).1 =
      .error (.createFailed 429) :=
  ⟨rfl,
    ((c4_retry_controller createAlways429 pollsSucceedThird 5).2.2.2.2.2
      rfl rfl rfl).1,
    ((c4_retry_controller createAlways429 pollsSucceedThird 5).2.2.2.2.2
      rfl rfl rfl).2⟩

/-! ## Claim C9: create-then-poll behaviour -/

/-- Polling through uniformly non-terminal responses runs the loop to
its deadline and synthesizes the timeout failure, having performed one
poll per admitted iteration. -/
theorem pollLoop_nonTerminal_timeout (polls : Nat → PollResp) :
    ∀ budget i, (∀ k, k < budget → (polls (i + k)).nonTerminal) →
      pollLoop polls i budget = (.error .pollTimeout, budget) := by
  intro budget
  induction budget with
  | zero => intro i _; rfl
  | succ b ih =>
    intro i hk
    have h0 : (polls i).nonTerminal := by
      have := hk 0 (Nat.succ_pos b)
      simpa using this
    have hrest : pollLoop polls (i + 1) b = (.error .pollTimeout, b) := by
      apply ih
      intro k hkb
      have := hk (k + 1) (by omega)
      simpa [Nat.add_assoc, Nat.add_comm 1 k] using this
    rcases hp : polls i with _ | p
    · simp [pollLoop, hp, hrest]
    · have hrun : p.pstatus = .running := by
        rw [hp] at h0
        exact h0
      simp [pollLoop, hp, hrun, hrest]

/-- C9 (confirmed): if the create response already carries a terminal
state the adapter short-circuits with zero polls (`succeeded` returns
the output, `failed` throws); during polling, a transport-level non-ok
response or a non-terminal body never causes a failure — the loop
simply continues, and a uniformly non-terminal run ends only at the
deadline with the locally synthesized timeout; a backend-reported
terminal failure or cancellation ends the invocation immediately after
that poll, with no further poll performed. -/
theorem c9_create_poll (create : Nat → CreateResp) (polls : Nat → PollResp)
    (budget : Nat) :
    (((createLoop create 0).2.2.isOk = true →
      (createLoop create 0).2.2.pred.pstatus = .succeeded →
      replicateRunVersion create polls budget =
        (.ok (createLoop create 0).2.2.pred.output,
          (createLoop create 0).1, (createLoop create 0).2.1, 0)) ∧
    ((createLoop create 0).2.2.isOk = true →
      (createLoop create 0).2.2.pred.pstatus = .failed →
      replicateRunVersion create polls budget =
        (.error (.predictionFailed (createLoop create 0).2.2.pred.errMsg),
          (createLoop create 0).1, (createLoop create 0).2.1, 0))) ∧
    (∀ i b, (polls i).nonTerminal →
      pollLoop polls i (b + 1) =
        ((pollLoop polls (i + 1) b).1, (pollLoop polls (i + 1) b).2 + 1)) ∧
    ((∀ k, k < budget → (polls k).nonTerminal) →
      pollLoop polls 0 budget = (.error .pollTimeout, budget)) ∧
    (∀ i b p, polls i = .ok p → p.pstatus = .failed →
      pollLoop polls i (b + 1) = (.error (.predictionFailed p.errMsg), 1)) ∧
    (∀ i b p, polls i = .ok p → p.pstatus = .canceled →
      pollLoop polls i (b + 1) = (.error .predictionCanceled, 1)) := by
  refine ⟨⟨fun hok hsucc => ?_, fun hok hfail => ?_⟩,
    fun i b hnt => ?_, fun hall => ?_,
    fun i b p hp hf => ?_, fun i b p hp hc => ?_⟩
  · unfold replicateRunVersion
    rw [if_pos hok, hsucc]
  · unfold replicateRunVersion
    rw [if_pos hok, hfail]
  · rcases hp : polls i with _ | p
    · simp [pollLoop, hp]
    · have hrun : p.pstatus = .running := by
        rw [hp] at hnt
        exact hnt
      simp [pollLoop, hp, hrun]
  · simpa using pollLoop_nonTerminal_timeout polls budget 0 (by simpa using hall)
  · simp [pollLoop, hp, hf]
  · simp [pollLoop, hp, hc]

/-- C9 (witness): under the oracle transport-error, running, succeeded,
the first poll continues the loop rather than failing, and a run whose
create response is terminal `succeeded` performs zero polls. -/
theorem c9_create_poll_witness :
    (pollsSucceedThird 0).nonTerminal ∧
    pollLoop pollsSucceedThird 0 5 =
      ((pollLoop pollsSucceedThird 1 4).1, (pollLoop pollsSucceedThird 1 4).2 + 1) ∧
    replicateRunVersion createOkDone pollsFailFirst 7 =
      (.ok (createLoop createOkDone 0).2.2.pred.output,
        (createLoop createOkDone 0).1, (createLoop createOkDone 0).2.1, 0) :=
  ⟨by decide,
    (c9_create_poll createOkDone pollsSucceedThird 5).2.1 0 4 (by decide),
    (c9_create_poll createOkDone pollsFailFirst 7).1.1
      (by rw [createLoop_eq]; simp [createOkDone, CreateResp.isOk])
      (by rw [createLoop_eq]; simp [createOkDone])⟩

/-! ## Claim C1: background classification and threshold -/

/-- Demonstration that the binary64 simulation in `thresholdOf` is not
equivalent to the exact rational mean comparison: on `boundarySamples`
the exact mean edge brightness is exactly 50, yet the accumulated
double rounding puts the computed mean just below 50 and the threshold
comes out 70, not 110.  This is why `thresholdOf` simulates the
doubles instead of comparing `avgBgBrightness` with 50. -/
theorem thresholdOf_boundary_binary64 :
    avgBgBrightness boundarySamples = 50 ∧
    bgIsGreen boundarySamples = false ∧
    bgIsAchromatic boundarySamples = true ∧
    thresholdOf boundarySamples = 70 := by
  refine ⟨?_, by decide, by decide, by decide⟩
  norm_num [avgBgBrightness, boundarySamples]

/-- C1 (counterexample): on the all-white 2×2 image the background is
achromatic with mean edge brightness 255 ≥ 50, yet the code derives
threshold 110 where the claim prescribes 70 for achromatic-and-bright
(the claim swaps the 70/110 arms of the brightness conditional). -/
theorem c1_threshold_counterexample :
    thresholdOf (edgeSamples white2) = 110 ∧
    c1ClaimThreshold (edgeSamples white2) = 70 := by
  constructor
  · decide
  · have hne : edgeSamples white2 ≠ [] := by simp [edgeSamples]
    have hiff := avgBgBrightness_lt_fifty_iff (edgeSamples white2) hne
    have hsum : ¬ ((edgeSamples white2).map fun s => s.r + s.g + s.b).sum <
        150 * (edgeSamples white2).length := by decide
    unfold c1ClaimThreshold
    rw [if_neg (by decide : ¬ bgIsGreen (edgeSamples white2) = true),
      if_pos (by decide : bgIsAchromatic (edgeSamples white2) = true),
      if_neg (fun hc => hsum (hiff.mp hc))]

/-- C1 (amended): the classification is as claimed — achromatic iff all
four edge samples have channel-spread < 35, chroma-key-green iff some
edge sample has green > 150 with red and blue both < 120 — and the
feather is the constant 15; but for byte-valued edge samples the
threshold is 80 when chroma-key; for an achromatic background it is
110 when the mean edge brightness exceeds 50 (achromatic-and-bright)
and 70 when the mean is below 50 (achromatic-and-dark), while at a
mean of exactly 50 the binary64 evaluation of the mean decides the arm
(either 70 or 110); else 70. -/
theorem c1_threshold_amended (es : List RGB) (hlen : es.length = 4)
    (hbytes : ∀ s ∈ es, s.r ≤ 255 ∧ s.g ≤ 255 ∧ s.b ≤ 255) :
    (bgIsAchromatic es = true ↔ ∀ s ∈ es, s.spread < 35) ∧
    (bgIsGreen es = true ↔ ∃ s ∈ es, 150 < s.g ∧ s.r < 120 ∧ s.b < 120) ∧
    feather = 15 ∧
    (bgIsGreen es = true → thresholdOf es = 80) ∧
    (bgIsGreen es = false → bgIsAchromatic es = false → thresholdOf es = 70) ∧
    (bgIsGreen es = false → bgIsAchromatic es = true →
      avgBgBrightness es < 50 → thresholdOf es = 70) ∧
    (bgIsGreen es = false → bgIsAchromatic es = true →
      50 < avgBgBrightness es → thresholdOf es = 110) ∧
    (bgIsGreen es = false → bgIsAchromatic es = true →
      avgBgBrightness es = 50 →
      thresholdOf es = 70 ∨ thresholdOf es = 110) := by
  have hne : es ≠ [] := by
    intro hnil
    rw [hnil] at hlen
    simp at hlen
  have hb765 : ∀ s ∈ es, s.r + s.g + s.b ≤ 765 := by
    intro s hs
    have := hbytes s hs
    omega
  have herr := dblBrightnessSum_err es hlen hb765
  have h54 : (2 : ℕ) ^ 54 = 18014398509481984 := by norm_num
  have h20 : (2 : ℕ) ^ 20 = 1048576 := by norm_num
  refine ⟨?_, ?_, rfl, ?_, ?_, ?_, ?_, ?_⟩
  · simp [bgIsAchromatic, List.all_eq_true]
  · simp [bgIsGreen, List.any_eq_true, and_assoc]
  · intro hg
    unfold thresholdOf
    rw [if_pos hg]
  · intro hg ha
    unfold thresholdOf
    rw [if_neg (by simp [hg]), if_neg (by simp [ha])]
  · intro hg ha havg
    have hsum : (es.map fun s => s.r + s.g + s.b).sum < 600 := by
      have := (avgBgBrightness_lt_fifty_iff es hne).mp havg
      omega
    unfold thresholdOf
    rw [if_neg (by simp [hg]), if_pos ha, if_pos]
    rw [hlen, h54]
    rw [h54, h20] at herr
    omega
  · intro hg ha havg
    have hsum : 600 < (es.map fun s => s.r + s.g + s.b).sum := by
      have := (fifty_lt_avgBgBrightness_iff es hne).mp havg
      omega
    unfold thresholdOf
    rw [if_neg (by simp [hg]), if_pos ha, if_neg]
    rw [hlen, h54]
    rw [h54, h20] at herr
    omega
  · intro hg ha _
    unfold thresholdOf
    rw [if_neg (by simp [hg]), if_pos ha]
    by_cases hd : dblBrightnessSum es < 50 * es.length * 2 ^ 54
    · exact Or.inl (if_pos hd)
    · exact Or.inr (if_neg hd)

/-- C1 (witness for the amended theorem): the all-white edge samples
are achromatic and not green, their exact mean brightness 255 exceeds
50, and the derived threshold is 110. -/
theorem c1_threshold_amended_witness :
    bgIsGreen (edgeSamples white2) = false ∧
    bgIsAchromatic (edgeSamples white2) = true ∧
    thresholdOf (edgeSamples white2) = 110 :=
  ⟨by decide, by decide,
    (c1_threshold_amended (edgeSamples white2) (by decide) (by decide)).2.2.2.2.2.2.1
      (by decide) (by decide)
      ((fifty_lt_avgBgBrightness_iff (edgeSamples white2) (by decide)).mpr (by decide))⟩

/-! ## Claim C5: the sanity guard -/

/-- C5 (amended): the guard itself holds as stated — whenever the
fraction of pixels finally marked background is below 5% or above 92%
of the pixel count (`pct < 0.05 || pct > 0.92`, in exact form), the
function resolves with the original asset unchanged.  The further
claim that every image at least 95% covered by one flat color is
returned unchanged is refuted by the counterexample below. -/
theorem c5_sanity_guard_amended (img : RGBAImage)
    (h : 20 * removedCount img < img.w * img.h ∨
      23 * (img.w * img.h) < 25 * removedCount img) :
    removeBackgroundCore img = none := by
  simp only [removeBackgroundCore]
  rw [if_pos h]

/-- C5 (witness for the amended theorem): an all-white 2×2 image marks
100% of its pixels background, trips the 92% guard and is returned
unchanged. -/
theorem c5_sanity_guard_amended_witness :
    23 * (white2.w * white2.h) < 25 * removedCount white2 ∧
    removeBackgroundCore white2 = none :=
  ⟨by decide, c5_sanity_guard_amended white2 (Or.inr (by decide))⟩

set_option maxRecDepth 200000 in
set_option maxHeartbeats 16000000 in
/-- C5 (counterexample): `flatFrameImg` is at least 95% one flat color
(380 of 400 pixels are the same white), yet `removeBackgroundCore`
does not return the original: the black ring splits the white into a
border-connected frame and an enclosed island, the marked fraction
(356 of 400, 89%) stays inside the guard band, and carving zeroes the
alpha of the corner pixel (byte 3 drops from 255 to 0). -/
theorem c5_sanity_guard_counterexample :
    (List.range (flatFrameImg.w * flatFrameImg.h)).countP
        (fun px => decide (flatFrameImg.d (4 * px) = 255 ∧
          flatFrameImg.d (4 * px + 1) = 255 ∧
          flatFrameImg.d (4 * px + 2) = 255)) = 380 ∧
    19 * (flatFrameImg.w * flatFrameImg.h) ≤ 20 * 380 ∧
    (removeBackgroundCore flatFrameImg).isSome = true ∧
    ((removeBackgroundCore flatFrameImg).getD flatFrameImg).d 3 = 0 ∧
    flatFrameImg.d 3 = 255 := by
  decide

/-! ## Claim C10: the frame effect of a produced image -/

/-- C10 (confirmed): whenever the pipeline produces a new image, it has
the same dimensions as the input, every byte outside the alpha channel
is unchanged, the alpha of a pixel not finally marked background is
unchanged, and every alpha is at most its input value. -/
theorem c10_frame_effect (img o : RGBAImage)
    (ho : removeBackgroundCore img = some o) :
    o.w = img.w ∧ o.h = img.h ∧
    (∀ i, i % 4 ≠ 3 → o.d i = img.d i) ∧
    (∀ px, (isBackgroundMask img).testBit px = false →
      o.d (4 * px + 3) = img.d (4 * px + 3)) ∧
    (∀ px, o.d (4 * px + 3) ≤ img.d (4 * px + 3)) := by
  simp only [removeBackgroundCore] at ho
  split at ho
  · exact absurd ho (by simp)
  · injection ho with ho
    subst ho
    refine ⟨rfl, rfl, ?_, ?_, ?_⟩
    · intro i hi
      simp [hi]
    · intro px hpx
      have h2 : (4 * px + 3) / 4 = px := by omega
      simp [h2, hpx]
    · intro px
      have h1 : (4 * px + 3) % 4 = 3 := by omega
      have h2 : (4 * px + 3) / 4 = px := by omega
      by_cases hb : (isBackgroundMask img).testBit px = true
      · simp only [h1, h2, hb, and_self, if_pos, carvedAlpha]
        split
        · exact Nat.zero_le _
        · exact min_le_left _ _
      · simp [h2, Bool.eq_false_iff.mpr hb]

/-- C10 (witness): the carved 6×6 image keeps the dimensions and only
darkens alpha. -/
theorem c10_frame_effect_witness :
    removeBackgroundCore img6 = some out6 ∧
    out6.w = img6.w ∧ out6.d 3 ≤ img6.d 3 := by
  have hs : (removeBackgroundCore img6).isSome = true := by decide
  have ho : removeBackgroundCore img6 = some out6 := by
    unfold out6
    rcases h : removeBackgroundCore img6 with _ | o
    · rw [h] at hs
      simp at hs
    · simp
  refine ⟨ho, (c10_frame_effect img6 out6 ho).1, ?_⟩
  have := (c10_frame_effect img6 out6 ho).2.2.2.2 0
  simpa using this

/-! ## Claims C6 and C7: carving and flood-fill acceptance -/

/-- The derived threshold is always one of 70, 80, 110, hence
positive. -/
theorem thresholdOf_pos (es : List RGB) : 0 < thresholdOf es := by
  unfold thresholdOf
  split_ifs <;> norm_num

/-- Projection of the carved output at an alpha byte of a
confirmed-background pixel. -/
theorem removeBackgroundCore_alpha (img o : RGBAImage)
    (ho : removeBackgroundCore img = some o) (px : Nat)
    (hb : (isBackgroundMask img).testBit px = true) :
    o.d (4 * px + 3) =
      carvedAlpha img.d (edgeSamples img) (thresholdOf (edgeSamples img)) px := by
  simp only [removeBackgroundCore] at ho
  split at ho
  · exact absurd ho (by simp)
  · injection ho with ho
    subst ho
    have h1 : (4 * px + 3) % 4 = 3 := by omega
    have h2 : (4 * px + 3) / 4 = px := by omega
    simp [h1, h2, hb]

/-- The integer expression `featherAlphaRaw` computes exactly
`Math.round(((dd - threshold) / 15) * 255)` over the reals, i.e.
`⌊17 * (√s - t) + 1/2⌋`, whenever the pixel is in the else branch
(`t² ≤ s`). -/
theorem featherAlphaRaw_eq_floor (s t : Nat) (h : t ^ 2 ≤ s) :
    (featherAlphaRaw s t : ℤ) =
      ⌊(17 * (Real.sqrt s - t) + 1 / 2 : ℝ)⌋ := by
  have hr1 : ((Nat.sqrt (1156 * s) : ℕ) : ℝ) ≤ Real.sqrt ((1156 * s : ℕ) : ℝ) := by
    rw [Real.le_sqrt (by positivity) (by positivity)]
    exact_mod_cast Nat.sqrt_le' (1156 * s)
  have hr2 : Real.sqrt ((1156 * s : ℕ) : ℝ) < ((Nat.sqrt (1156 * s) + 1 : ℕ) : ℝ) := by
    rw [Real.sqrt_lt' (by positivity)]
    exact_mod_cast Nat.lt_succ_sqrt' (1156 * s)
  have h34 : 34 * t ≤ Nat.sqrt (1156 * s) := by
    rw [Nat.le_sqrt']
    calc (34 * t) ^ 2 = 1156 * t ^ 2 := by ring
      _ ≤ 1156 * s := Nat.mul_le_mul_left 1156 h
  have hss : Real.sqrt ((s : ℕ) : ℝ) = Real.sqrt ((1156 * s : ℕ) : ℝ) / 34 := by
    rw [show ((1156 * s : ℕ) : ℝ) = 34 ^ 2 * (s : ℝ) by push_cast; ring,
      Real.sqrt_mul (by positivity) _, Real.sqrt_sq (by norm_num)]
    ring
  set r := Nat.sqrt (1156 * s) with hrdef
  set x := Real.sqrt ((1156 * s : ℕ) : ℝ) with hxdef
  have hn1 : 2 * ((r + 1 - 34 * t) / 2) ≤ r + 1 - 34 * t := by omega
  have hn2 : r + 1 - 34 * t ≤ 2 * ((r + 1 - 34 * t) / 2) + 1 := by omega
  have hale : 34 * t ≤ r + 1 := le_trans h34 (Nat.le_succ r)
  have hacast : ((r + 1 - 34 * t : ℕ) : ℝ) = (r : ℝ) + 1 - 34 * t := by
    push_cast [hale]
    ring
  have hc1 : ((2 * ((r + 1 - 34 * t) / 2) : ℕ) : ℝ) ≤ ((r + 1 - 34 * t : ℕ) : ℝ) := by
    exact_mod_cast hn1
  have hc2 : ((r + 1 - 34 * t : ℕ) : ℝ) ≤ ((2 * ((r + 1 - 34 * t) / 2) + 1 : ℕ) : ℝ) := by
    exact_mod_cast hn2
  rw [hacast] at hc1 hc2
  push_cast at hc1 hc2
  symm
  rw [Int.floor_eq_iff]
  constructor
  · push_cast
    rw [hss]
    have hrx : (r : ℝ) ≤ x := hr1
    unfold featherAlphaRaw
    rw [← hrdef]
    linarith
  · push_cast
    rw [hss]
    have hrx : x < (r : ℝ) + 1 := by
      have := hr2
      push_cast at this
      linarith
    unfold featherAlphaRaw
    rw [← hrdef]
    linarith

/-- C6 (confirmed): for every pixel confirmed background by the
majority vote, the produced alpha is 0 when the distance to the
nearest edge color is below the threshold, and otherwise it is
`round(((distance - threshold) / feather) * 255)` clamped to [0, 255]
and to the existing alpha; in particular alpha is never increased, a
distance-0 pixel becomes fully transparent, and a pixel at distance at
least `threshold + feather` keeps its original alpha. -/
theorem c6_alpha_carving (img o : RGBAImage) (px : Nat)
    (ho : removeBackgroundCore img = some o)
    (hb : (isBackgroundMask img).testBit px = true)
    (ha : img.d (4 * px + 3) ≤ 255) :
    (Real.sqrt (minEdgeDistSq img.d (edgeSamples img) px) <
        (thresholdOf (edgeSamples img) : ℝ) →
      o.d (4 * px + 3) = 0) ∧
    ((thresholdOf (edgeSamples img) : ℝ) ≤
        Real.sqrt (minEdgeDistSq img.d (edgeSamples img) px) →
      (o.d (4 * px + 3) : ℤ) =
        min (img.d (4 * px + 3) : ℤ) (max 0 (min 255
          ⌊((Real.sqrt (minEdgeDistSq img.d (edgeSamples img) px) -
              (thresholdOf (edgeSamples img) : ℝ)) / feather * 255 + 1 / 2 : ℝ)⌋))) ∧
    o.d (4 * px + 3) ≤ img.d (4 * px + 3) ∧
    (minEdgeDistSq img.d (edgeSamples img) px = 0 → o.d (4 * px + 3) = 0) ∧
    ((thresholdOf (edgeSamples img) : ℝ) + feather ≤
        Real.sqrt (minEdgeDistSq img.d (edgeSamples img) px) →
      o.d (4 * px + 3) = img.d (4 * px + 3)) := by
  have hod := removeBackgroundCore_alpha img o ho px hb
  set s := minEdgeDistSq img.d (edgeSamples img) px with hsdef
  set t := thresholdOf (edgeSamples img) with htdef
  have ht0 : 0 < t := thresholdOf_pos _
  refine ⟨?_, ?_, ?_, ?_, ?_⟩
  · intro hlt
    have hs : s < t ^ 2 := (sqrt_natCast_lt_iff ht0).mp hlt
    rw [hod]
    simp only [carvedAlpha, ← hsdef]
    rw [if_pos hs]
  · intro hge
    have hs2 : t ^ 2 ≤ s := natCast_le_sqrt_iff.mp hge
    have hns : ¬ s < t ^ 2 := not_lt.mpr hs2
    rw [hod]
    simp only [carvedAlpha, ← hsdef]
    rw [if_neg hns]
    push_cast
    rw [featherAlphaRaw_eq_floor s t hs2]
    have hfe : ((Real.sqrt s - (t : ℝ)) / (feather : ℕ) * 255 + 1 / 2 : ℝ) =
        17 * (Real.sqrt s - t) + 1 / 2 := by
      rw [show ((feather : ℕ) : ℝ) = 15 by norm_num [feather]]
      ring
    rw [hfe]
  · rw [hod]
    simp only [carvedAlpha, ← hsdef]
    split
    · exact Nat.zero_le _
    · exact min_le_left _ _
  · intro h0
    have hs : s < t ^ 2 := by
      rw [h0]
      positivity
    rw [hod]
    simp only [carvedAlpha, ← hsdef]
    rw [if_pos hs]
  · intro hge15
    have hf : ((t + feather : ℕ) : ℝ) ≤ Real.sqrt s := by
      push_cast
      exact hge15
    have hs15 : (t + feather) ^ 2 ≤ s := natCast_le_sqrt_iff.mp hf
    have hns : ¬ s < t ^ 2 :=
      not_lt.mpr (le_trans (Nat.pow_le_pow_left (Nat.le_add_right t feather) 2) hs15)
    have hr255 : 255 ≤ featherAlphaRaw s t := by
      unfold featherAlphaRaw
      have hle : 34 * t + 510 ≤ Nat.sqrt (1156 * s) := by
        rw [Nat.le_sqrt']
        calc (34 * t + 510) ^ 2 = 1156 * (t + 15) ^ 2 := by ring
          _ = 1156 * (t + feather) ^ 2 := by norm_num [feather]
          _ ≤ 1156 * s := Nat.mul_le_mul_left 1156 hs15
      omega
    rw [hod]
    simp only [carvedAlpha, ← hsdef]
    rw [if_neg hns, Nat.min_eq_left hr255, Nat.max_eq_right (Nat.zero_le 255),
      Nat.min_eq_left ha]

/-- C6 (witness): the corner pixel of the 6×6 fixture is confirmed
background at distance 0 and its produced alpha is 0. -/
theorem c6_alpha_carving_witness :
    (isBackgroundMask img6).testBit 0 = true ∧
    minEdgeDistSq img6.d (edgeSamples img6) 0 = 0 ∧
    out6.d 3 = 0 := by
  have hs : (removeBackgroundCore img6).isSome = true := by decide
  have ho : removeBackgroundCore img6 = some out6 := by
    unfold out6
    rcases h : removeBackgroundCore img6 with _ | o
    · rw [h] at hs
      simp at hs
    · simp
  refine ⟨by decide, by decide, ?_⟩
  have h := (c6_alpha_carving img6 out6 0 ho (by decide) (by decide)).2.2.2.1 (by decide)
  simpa using h

/-- C7 (confirmed): the flood fill accepts a pixel exactly when its
Euclidean RGB distance to the nearest edge-color estimate is below
`threshold + feather` and, whenever the background was classified
achromatic, the pixel itself is low-saturation in the claimed sense
(max channel ≤ 10, or spread < 30 with relative spread < 0.18). -/
theorem c7_flood_accept (img : RGBAImage) (px : Nat) :
    acceptBg img.d (edgeSamples img) (bgIsAchromatic (edgeSamples img))
        (thresholdOf (edgeSamples img)) px = true ↔
      (Real.sqrt (minEdgeDistSq img.d (edgeSamples img) px) <
          (thresholdOf (edgeSamples img) : ℝ) + feather ∧
        (bgIsAchromatic (edgeSamples img) = true → lowSatSpec img.d px)) := by
  have ht : 0 < thresholdOf (edgeSamples img) + feather := by
    have := thresholdOf_pos (edgeSamples img)
    omega
  have hsq : Real.sqrt (minEdgeDistSq img.d (edgeSamples img) px) <
      (thresholdOf (edgeSamples img) : ℝ) + feather ↔
      minEdgeDistSq img.d (edgeSamples img) px <
        (thresholdOf (edgeSamples img) + feather) ^ 2 := by
    rw [show ((thresholdOf (edgeSamples img) : ℝ) + feather) =
        ((thresholdOf (edgeSamples img) + feather : ℕ) : ℝ) by push_cast; ring]
    exact sqrt_natCast_lt_iff ht
  have hls := isLowSaturation_iff img.d px
  unfold acceptBg
  by_cases hacc : minEdgeDistSq img.d (edgeSamples img) px <
      (thresholdOf (edgeSamples img) + feather) ^ 2
  · cases hA : bgIsAchromatic (edgeSamples img) with
    | false => simp [hA, hsq, hacc]
    | true => simp [hA, hsq, hacc, hls]
  · simp [hsq, hacc]

/-- C7 (witness): the corner pixel of the 6×6 fixture is accepted, and
the theorem yields the claimed characterization for it. -/
theorem c7_flood_accept_witness :
    Real.sqrt (minEdgeDistSq img6.d (edgeSamples img6) 0) <
      (thresholdOf (edgeSamples img6) : ℝ) + feather ∧
    (bgIsAchromatic (edgeSamples img6) = true → lowSatSpec img6.d 0) :=
  (c7_flood_accept img6 0).mp (by decide)

end StoryCreator
